import Mathlib

/-!
Verification of the Nettigo Air Monitor client library
(`src/nettigo_air_monitor/__init__.py`).

The development shallowly embeds the Python code: JSON values become an
inductive type, the dynamic dictionary becomes an insertion-ordered
association list, Python-level exceptions (`TypeError`, `KeyError`,
`ValueError`, `AttributeError`) and the library's domain errors become
explicit `Except` results, and the mutable client object becomes explicit
state passing.  Python `float`s are modelled as rationals; `round(x, 1)`
is modelled as ideal round-half-to-even at one decimal digit.

Parts of the repository that are not in `src/` (the constants module with
`RENAME_KEY_MAP` and `RESPONSES_FROM_CACHE`, the exceptions module, the
`NAMSensors` model, and the external `aqipy`/`dacite` dependencies) are
either taken as parameters or modelled from the specification; those
definitions carry a `Modelled from the spec:` doc comment.
-/

namespace NAM

/-- A value stored in the normalized sensor dictionary: a number, a string
(the CAQI level texts), or Python `None`. -/
inductive SVal where
  | num (q : ℚ)
  | str (s : String)
  | none_
deriving DecidableEq

/-- A Python/JSON value, as produced by `resp.json()`. -/
inductive JsonVal where
  | str (s : String)
  | num (q : ℚ)
  | bool (b : Bool)
  | null
  | list (xs : List JsonVal)
  | obj (kvs : List (String × JsonVal))

/-- The Python-level exceptions that the embedded expressions can raise. -/
inductive PyErr where
  | typeError
  | keyError
  | valueError
  | attributeError
deriving DecidableEq

/-- Modelled from the spec: the error taxonomy of the library's
`exceptions` module (the file is not under `src/`).  Per §7 every domain
error carries its original status/detail, here a string. -/
inductive NamError where
  | apiError (status : String)
  | authFailed (status : String)
  | notResponding (status : String)
  | invalidSensorData (status : String)
  | cannotGetMac (status : String)
deriving DecidableEq

/-- Result of a public operation: either a domain error or an uncaught
Python-level exception escaping the library. -/
inductive UpdErr where
  | nam (e : NamError)
  | py (e : PyErr)
deriving DecidableEq

/-- Decidable equality for `Except`, so that concrete runs of the embedded
functions can be checked by `decide`. -/
def exceptDecEq {α β : Type} [DecidableEq α] [DecidableEq β] :
    DecidableEq (Except α β) := fun a b =>
  match a, b with
  | .error x, .error y =>
      if h : x = y then .isTrue (by rw [h])
      else .isFalse (by intro he; cases he; exact h rfl)
  | .error _, .ok _ => .isFalse (by intro he; cases he)
  | .ok _, .error _ => .isFalse (by intro he; cases he)
  | .ok x, .ok y =>
      if h : x = y then .isTrue (by rw [h])
      else .isFalse (by intro he; cases he; exact h rfl)

instance {α β : Type} [DecidableEq α] [DecidableEq β] : DecidableEq (Except α β) :=
  exceptDecEq

/-- The normalized sensor dictionary: a Python `dict` modelled as an
insertion-ordered association list. -/
abbrev PDict : Type := List (String × SVal)

/-- Python dict lookup (first matching key; real dicts have unique keys). -/
def dget : PDict → String → Option SVal
  | [], _ => none
  | p :: rest, k => if p.1 = k then some p.2 else dget rest k

/-- Python dict assignment `d[k] = v`: update in place if the key exists,
otherwise append at the end (insertion order is preserved). -/
def dinsert : PDict → String → SVal → PDict
  | [], k, v => [(k, v)]
  | p :: rest, k, v => if p.1 = k then (k, v) :: rest else p :: dinsert rest k v

/-- Python `d.pop(k)`'s removal effect. -/
def dremove : PDict → String → PDict
  | [], _ => []
  | p :: rest, k => if p.1 = k then dremove rest k else p :: dremove rest k

/-- Lookup in a JSON object. -/
def lookupObj (kvs : List (String × JsonVal)) (k : String) : Option JsonVal :=
  match kvs with
  | [] => none
  | p :: rest => if p.1 = k then some p.2 else lookupObj rest k

/-- Python subscripting `x[k]` with a string key: succeeds only on a dict
that has the key (`KeyError` otherwise); subscripting a string, list or
other value with a string key raises `TypeError`. -/
def pySubscr : JsonVal → String → Except PyErr JsonVal
  | .obj kvs, k =>
      match lookupObj kvs k with
      | some v => .ok v
      | none => .error .keyError
  | _, _ => .error .typeError

/-- `str.lower()` on the character list (the sensor keys are ASCII). -/
def strLower (s : String) : String :=
  String.mk (s.data.map Char.toLower)

/-- Python `x.lower()`: only strings have the method; anything else raises
`AttributeError`. -/
def pyLower : JsonVal → Except PyErr String
  | .str s => .ok (strLower s)
  | _ => .error .attributeError

/-- Whitespace stripped by Python's numeric constructors. -/
def isSpaceChar (c : Char) : Bool :=
  c = ' ' || c = '\t' || c = '\n' || c = '\r'

/-- `str.strip()` on the character list. -/
def trimChars (cs : List Char) : List Char :=
  ((cs.dropWhile isSpaceChar).reverse.dropWhile isSpaceChar).reverse

/-- Digit parsing helper for the decimal-literal parser. -/
def parseDigits (cs : List Char) : Option ℕ :=
  cs.foldlM (fun a c => if c.isDigit then some (a * 10 + (c.toNat - 48)) else none) 0

/-- Unsigned finite decimal literal: digits with an optional single dot. -/
def parseUFloat (cs : List Char) : Option ℚ :=
  match cs.splitOn '.' with
  | [intPart] =>
      if intPart.isEmpty then none
      else (parseDigits intPart).map (fun n => (n : ℚ))
  | [intPart, fracPart] =>
      if intPart.isEmpty && fracPart.isEmpty then none
      else do
        let i ← if intPart.isEmpty then some 0 else parseDigits intPart
        let fr ← if fracPart.isEmpty then some 0 else parseDigits fracPart
        pure ((i : ℚ) + (fr : ℚ) / ((10 : ℚ) ^ fracPart.length))
  | _ => none

/-- Python `float(s)` on a string, restricted to finite decimal literals
(optional sign, digits, optional dot); anything else raises `ValueError`. -/
def parseFloat (s : String) : Option ℚ :=
  match trimChars s.data with
  | [] => none
  | '+' :: rest => parseUFloat rest
  | '-' :: rest => (parseUFloat rest).map Neg.neg
  | cs => parseUFloat cs

/-- Python `int(s)` on a string: an optionally signed run of digits. -/
def parseIntStr (s : String) : Option ℤ :=
  match trimChars s.data with
  | [] => none
  | '+' :: rest => if rest.isEmpty then none else (parseDigits rest).map (fun n => (n : ℤ))
  | '-' :: rest => if rest.isEmpty then none else (parseDigits rest).map (fun n => -(n : ℤ))
  | cs => (parseDigits cs).map (fun n => (n : ℤ))

/-- Python `float(x)`: numbers pass through, booleans become 0/1, strings
are parsed (`ValueError` on failure), everything else raises `TypeError`. -/
def pyFloat : JsonVal → Except PyErr ℚ
  | .num q => .ok q
  | .bool b => .ok (if b then 1 else 0)
  | .str s =>
      match parseFloat s with
      | some q => .ok q
      | none => .error .valueError
  | _ => .error .typeError

/-- Rational truncation toward zero, as Python `int()` on a number. -/
def truncQ (q : ℚ) : ℤ := if 0 ≤ q then q.floor else q.ceil

/-- Python `int(x)`. -/
def pyInt : JsonVal → Except PyErr ℤ
  | .num q => .ok (truncQ q)
  | .bool b => .ok (if b then 1 else 0)
  | .str s =>
      match parseIntStr s with
      | some n => .ok n
      | none => .error .valueError
  | _ => .error .typeError

/-- Round half to even at integer precision (Python's `round` on exact
values; binary floating-point artifacts are out of scope). -/
def roundHalfEven (q : ℚ) : ℤ :=
  let f := q.floor
  let r := q - (f : ℚ)
  if r < 1 / 2 then f
  else if 1 / 2 < r then f + 1
  else if f % 2 = 0 then f else f + 1

/-- Python `round(x, 1)`. -/
def round1 (q : ℚ) : ℚ := (roundHalfEven (q * 10) : ℚ) / 10

/-- Python `for item in data`: lists yield their items, strings their
characters (as one-character strings), dicts their keys; numbers, booleans
and `None` are not iterable (`TypeError`). -/
def iterElems : JsonVal → Except PyErr (List JsonVal)
  | .list xs => .ok xs
  | .str s => .ok (s.data.map (fun c => JsonVal.str (String.mk [c])))
  | .obj kvs => .ok (kvs.map (fun p => JsonVal.str p.1))
  | _ => .error .typeError

/-- One item of the dict comprehension in `_parse_sensor_data`: the key
expression `item["value_type"].lower()` is evaluated first, then the raw
value `float(item["value"])` (rounding is applied by the caller). -/
def itemKV (item : JsonVal) : Except PyErr (String × ℚ) :=
  match pySubscr item "value_type" with
  | .error e => .error e
  | .ok vt =>
      match pyLower vt with
      | .error e => .error e
      | .ok k =>
          match pySubscr item "value" with
          | .error e => .error e
          | .ok v =>
              match pyFloat v with
              | .error e => .error e
              | .ok q => .ok (k, q)

/-- The dict comprehension
`{item["value_type"].lower(): round(float(item["value"]), 1) for item in data}`,
threading the dictionary built so far. -/
def comprehensionAux (m : PDict) : List JsonVal → Except PyErr PDict
  | [] => .ok m
  | item :: rest =>
      match itemKV item with
      | .error e => .error e
      | .ok p => comprehensionAux (dinsert m p.1 (SVal.num (round1 p.2))) rest

/-- The comprehension started from the empty dict. -/
def sensorComprehension (xs : List JsonVal) : Except PyErr PDict :=
  comprehensionAux [] xs

/-- List-of-characters prefix test. -/
def charsStartWith : List Char → List Char → Bool
  | _, [] => true
  | [], _ :: _ => false
  | c :: cs, d :: ds => if c = d then charsStartWith cs ds else false

/-- Substring containment on character lists: some suffix starts with the
pattern. -/
def containsAux (pat : List Char) : List Char → Bool
  | [] => charsStartWith [] pat
  | c :: rest => charsStartWith (c :: rest) pat || containsAux pat rest

/-- `"pressure" in key` (substring containment). -/
def strContains (s pat : String) : Bool :=
  containsAux pat.data s.data

/-- `value / 100` on a dict value; dividing a non-number raises `TypeError`
(unreachable in the actual flow, where all values are numbers). -/
def sdiv100 : SVal → Except PyErr SVal
  | .num q => .ok (SVal.num (q / 100))
  | _ => .error .typeError

/-- The pressure loop of `_parse_sensor_data`: every entry whose key
contains `"pressure"` and whose value is not `None` is divided by 100,
in place. -/
def pressureStep : PDict → Except PyErr PDict
  | [] => .ok []
  | (k, v) :: rest =>
      if strContains k "pressure" = true ∧ v ≠ SVal.none_ then
        match sdiv100 v with
        | .error e => .error e
        | .ok v' =>
            match pressureStep rest with
            | .error e => .error e
            | .ok rest' => .ok ((k, v') :: rest')
      else
        match pressureStep rest with
        | .error e => .error e
        | .ok rest' => .ok ((k, v) :: rest')

/-- One iteration of the rename loop:
`if result.get(old_key) is not None: result[new_key] = result.pop(old_key)`. -/
def renameStep (m : PDict) (okey nkey : String) : PDict :=
  match dget m okey with
  | some v => if v ≠ SVal.none_ then dinsert (dremove m okey) nkey v else m
  | none => m

/-- The rename loop of `_parse_sensor_data` over the rename table
(`RENAME_KEY_MAP` lives in the constants module, which is not under
`src/`; the table is therefore a parameter). -/
def applyRename (tbl : List (String × String)) (m : PDict) : PDict :=
  tbl.foldl (fun m p => renameStep m p.1 p.2) m

/-- `NettigoAirMonitor._parse_sensor_data`, parameterized by the rename
table: build the comprehension dict, divide pressure values by 100, then
apply the legacy-key renames. -/
def parse_sensor_data (tbl : List (String × String)) (data : JsonVal) :
    Except PyErr PDict :=
  match iterElems data with
  | .error e => .error e
  | .ok xs =>
      match sensorComprehension xs with
      | .error e => .error e
      | .ok m =>
          match pressureStep m with
          | .error e => .error e
          | .ok m1 => .ok (applyRename tbl m1)

/-- The raw value of the last reading in `xs` whose lower-cased
`value_type` is `k`, threading an accumulator (used to specify the
last-one-wins behaviour of the dict comprehension). -/
def lastRawAux (acc : Option ℚ) : List JsonVal → String → Option ℚ
  | [], _ => acc
  | item :: rest, k =>
      match itemKV item with
      | .error _ => lastRawAux acc rest k
      | .ok p => lastRawAux (if p.1 = k then some p.2 else acc) rest k

/-- The raw value of the last reading in `xs` with lower-cased key `k`. -/
def lastRaw (xs : List JsonVal) (k : String) : Option ℚ :=
  lastRawAux none xs k

/-- Division by 100 on numeric dict values, as a total function. -/
def sdivP : SVal → SVal
  | .num q => SVal.num (q / 100)
  | x => x

/-- The per-entry effect of the pressure loop, as a function. -/
def transformP (k : String) (v : SVal) : SVal :=
  if strContains k "pressure" = true ∧ v ≠ SVal.none_ then sdivP v else v

/-- A completed HTTP exchange as seen by `_async_http_request`: either the
session produced a response (whose body is the already-decoded JSON), or it
raised a connector error, or the fixed timeout elapsed. -/
inductive SessionResult where
  | resp (status : ℕ) (body : JsonVal)
  | connError
  | timeout

/-- The raw response object returned on success. -/
structure Response where
  status : ℕ
  body : JsonVal

/-- `NettigoAirMonitor._async_http_request`: `raise_for_status=True` turns
a status ≥ 400 into a client-response error, mapped to `authFailed` for 401
and otherwise to `apiError` annotated with the status; connector errors and
timeouts become `notResponding`; a surviving response with status ≠ 200 is
also an `apiError` annotated with the status.  The function is total into
`Except NamError`, so no raw transport exception crosses this boundary. -/
def async_http_request (host : String) (sr : SessionResult) :
    Except NamError Response :=
  match sr with
  | .resp st body =>
      if 400 ≤ st then
        if st = 401 then .error (.authFailed "Authorization has failed")
        else .error (.apiError ("Invalid response from device " ++ host ++ ": " ++ toString st))
      else if st ≠ 200 then
        .error (.apiError ("Invalid response from device " ++ host ++ ": " ++ toString st))
      else .ok ⟨st, body⟩
  | .connError => .error (.notResponding ("The device " ++ host ++ " is not responding"))
  | .timeout => .error (.notResponding ("The device " ++ host ++ " is not responding"))

/-- Python truthiness of the `_last_data` attribute (`and self._last_data`). -/
def truthy : JsonVal → Bool
  | .obj kvs => !kvs.isEmpty
  | .list xs => !xs.isEmpty
  | .str s => !s.isEmpty
  | .num q => decide (q ≠ 0)
  | .bool b => b
  | .null => false

/-- The mutable fields of a `NettigoAirMonitor` instance.  `software_version`
is `none` while the attribute is still unset (it has only a type annotation
in `__init__`), and `auth_enabled` holds whatever value was assigned to it. -/
structure ClientState where
  host : String
  last_data : JsonVal
  update_errors : ℕ
  software_version : Option JsonVal
  auth_enabled : JsonVal

/-- The state right after `__init__`. -/
def initState (host : String) : ClientState :=
  ⟨host, .obj [], 0, none, .bool false⟩

/-- The `data["sensordatavalues"]` subscript plus `_parse_sensor_data`,
i.e. the body of the `try` block in `async_update`. -/
def parseAttempt (tbl : List (String × String)) (data : JsonVal) :
    Except PyErr PDict :=
  match pySubscr data "sensordatavalues" with
  | .error e => .error e
  | .ok sdv => parse_sensor_data tbl sdv

/-- `if ATTR_UPTIME in data: sensors[ATTR_UPTIME] = int(data[ATTR_UPTIME])`
(`ATTR_UPTIME` is the key `"uptime"`; this point is only reached with a
dict payload, since an earlier subscript succeeded). -/
def uptimeStep (data : JsonVal) (sensors : PDict) : Except PyErr PDict :=
  match data with
  | .obj kvs =>
      match lookupObj kvs "uptime" with
      | some v =>
          match pyInt v with
          | .ok n => .ok (dinsert sensors "uptime" (SVal.num (n : ℚ)))
          | .error e => .error e
      | none => .ok sensors
  | _ => .error .typeError

/-- Modelled from the spec: `aqipy.caqi_eu.get_caqi` with `with_level=True`,
an external dependency treated by the spec as a pure function computing the
index from the PM10/PM2.5 one-hour readings; per §3/§4 missing inputs yield
no valid index and skip the derivation.  The numeric index and the level
text for present inputs are given by the abstract function `f`. -/
def get_caqi (f : ℚ → ℚ → ℚ × String) (pm10 pm25 : Option ℚ) :
    Option ℚ × String :=
  match pm10, pm25 with
  | some a, some b => (some (f a b).1, (f a b).2)
  | _, _ => (none, "")

/-- `sensors.get(key)` restricted to numeric values (the `_p1`/`_p2`
readings are always numbers when present). -/
def dgetNum (m : PDict) (k : String) : Option ℚ :=
  match dget m k with
  | some (.num q) => some q
  | _ => none

/-- `data["level"].replace(" ", "_")`: with a one-character pattern this is
a per-character substitution. -/
def replaceSpaceUnderscore (s : String) : String :=
  String.mk (s.data.map (fun c => if c = ' ' then '_' else c))

/-- One iteration of the CAQI loop in `async_update` for the family
prefix `s`. -/
def caqiFamily (f : ℚ → ℚ → ℚ × String) (m : PDict) (s : String) : PDict :=
  match get_caqi f (dgetNum m (s ++ "_p1")) (dgetNum m (s ++ "_p2")) with
  | (some value, lvl) =>
      if value > -1 then
        dinsert (dinsert m (s ++ "_caqi") (SVal.num value)) (s ++ "_caqi_level")
          (SVal.str (replaceSpaceUnderscore lvl))
      else m
  | (none, _) => m

/-- The three particulate-sensor family prefixes iterated by `async_update`. -/
def FAMILIES : List String := ["pms", "sds011", "sps30"]

/-- The whole CAQI loop. -/
def caqiStep (f : ℚ → ℚ → ℚ × String) (m : PDict) : PDict :=
  FAMILIES.foldl (caqiFamily f) m

/-- Modelled from the spec: `NAMSensors` (from the model module, not under
`src/`) is a typed structural projection of the final flat dictionary that
ignores unknown keys; the claims quantify over its fields, so the result is
modelled as that dictionary itself. -/
abbrev NAMSensors : Type := PDict

/-- Modelled from the spec: `dacite.from_dict(data_class=NAMSensors, ...)`,
the structural mapping onto the typed schema (§3, §9). -/
def from_dict (sensors : PDict) : NAMSensors := sensors

/-- Everything `async_update` does with the payload after the fetch and the
cache bookkeeping: extract `software_version` (a plain `KeyError` escapes if
it is missing), normalize `sensordatavalues` (converting `TypeError` and
`KeyError` to `InvalidSensorDataError`), copy `uptime`, derive the CAQI
fields, and build the result. -/
def parsePayload (tbl : List (String × String)) (f : ℚ → ℚ → ℚ × String)
    (data : JsonVal) : Except UpdErr NAMSensors :=
  match pySubscr data "software_version" with
  | .error e => .error (.py e)
  | .ok _ =>
      match parseAttempt tbl data with
      | .error .typeError => .error (.nam (.invalidSensorData "Invalid sensor data"))
      | .error .keyError => .error (.nam (.invalidSensorData "Invalid sensor data"))
      | .error e => .error (.py e)
      | .ok sensors =>
          match uptimeStep data sensors with
          | .error e => .error (.py e)
          | .ok s1 => .ok (from_dict (caqiStep f s1))

/-- The post-fetch part of `async_update` including its state effect: the
`software_version` attribute is set when the subscript succeeds. -/
def afterFetch (tbl : List (String × String)) (f : ℚ → ℚ → ℚ × String)
    (st : ClientState) (data : JsonVal) : ClientState × Except UpdErr NAMSensors :=
  match pySubscr data "software_version" with
  | .error e => (st, .error (.py e))
  | .ok sv => ({ st with software_version := some sv }, parsePayload tbl f data)

/-- `NettigoAirMonitor.async_update`, parameterized by the rename table
`tbl`, the abstract CAQI function `f` and the cache threshold `cacheN`
(`RESPONSES_FROM_CACHE` lives in the constants module, not under `src/`).
It returns the mutated state together with the result: a `NotResponding`
fetch either falls back to the cached payload (incrementing the failure
counter) or is re-raised as `ApiError` with the original status detail;
other fetch errors propagate; a successful fetch overwrites the cache and
resets the counter before the payload is processed. -/
def async_update (tbl : List (String × String)) (f : ℚ → ℚ → ℚ × String)
    (cacheN : ℕ) (st : ClientState) (sr : SessionResult) :
    ClientState × Except UpdErr NAMSensors :=
  match async_http_request st.host sr with
  | .error (.notResponding msg) =>
      if st.update_errors ≤ cacheN ∧ truthy st.last_data = true then
        afterFetch tbl f { st with update_errors := st.update_errors + 1 } st.last_data
      else (st, .error (.nam (.apiError msg)))
  | .error e => (st, .error (.nam e))
  | .ok r =>
      afterFetch tbl f { st with last_data := r.body, update_errors := 0 } r.body

/-- `NettigoAirMonitor.async_check_credentials`: fetch the config JSON,
turning a `NotRespondingError` into `ApiError` with its status detail. -/
def async_check_credentials (host : String) (sr : SessionResult) :
    Except NamError JsonVal :=
  match async_http_request host sr with
  | .error (.notResponding msg) => .error (.apiError msg)
  | .error e => .error e
  | .ok r => .ok r.body

/-- Python `config.get(k, default)`: only dicts have `.get`. -/
def pyGetD (o : JsonVal) (k : String) (d : JsonVal) : Except PyErr JsonVal :=
  match o with
  | .obj kvs => .ok ((lookupObj kvs k).getD d)
  | _ => .error .attributeError

/-- `NettigoAirMonitor.initialize`: on `AuthFailedError` from the credential
check, set `auth_enabled` to `True` and leave `software_version` untouched;
otherwise read `config["www_basicauth_enabled"]` and
`config.get("SOFTWARE_VERSION", "")` into the two cached fields.  Other
errors from the credential check propagate. -/
def deviceInit (st : ClientState) (sr : SessionResult) :
    ClientState × Except UpdErr Unit :=
  match async_check_credentials st.host sr with
  | .error (.authFailed _) => ({ st with auth_enabled := .bool true }, .ok ())
  | .error e => (st, .error (.nam e))
  | .ok config =>
      match pySubscr config "www_basicauth_enabled" with
      | .error e => (st, .error (.py e))
      | .ok v =>
          match pyGetD config "SOFTWARE_VERSION" (.str "") with
          | .error e => ({ st with auth_enabled := v }, .error (.py e))
          | .ok sv =>
              ({ st with auth_enabled := v, software_version := some sv }, .ok ())

/-- A minimal well-formed payload, used to instantiate proved theorems at
concrete inputs. -/
def samplePayload : JsonVal :=
  .obj [("software_version", .str "1"), ("sensordatavalues", .list [])]

/-- A client state holding `samplePayload` as its last successful payload. -/
def sampleState : ClientState :=
  { initState "nam" with last_data := samplePayload }

/-! ## Dictionary lemmas -/

theorem dget_dinsert (m : PDict) (k k' : String) (v : SVal) :
    dget (dinsert m k v) k' = if k' = k then some v else dget m k' := by
  induction m with
  | nil =>
      rcases eq_or_ne k' k with h | h
      · subst h; simp [dinsert, dget]
      · simp [dinsert, dget, h, Ne.symm h]
  | cons p rest ih =>
      rcases eq_or_ne p.1 k with hp | hp
      · rcases eq_or_ne k' k with h | h
        · subst h; simp [dinsert, dget, hp]
        · have hp' : p.1 ≠ k' := by rw [hp]; exact Ne.symm h
          simp [dinsert, dget, hp, h, Ne.symm h, hp']
      · rcases eq_or_ne p.1 k' with hq | hq
        · have h : k' ≠ k := fun he => hp (hq.trans he)
          simp [dinsert, dget, hp, hq, h]
        · simp [dinsert, dget, hp, hq, ih]

theorem dget_dremove (m : PDict) (k k' : String) :
    dget (dremove m k) k' = if k' = k then none else dget m k' := by
  induction m with
  | nil => simp [dremove, dget]
  | cons p rest ih =>
      rcases eq_or_ne p.1 k with hp | hp
      · rcases eq_or_ne k' k with h | h
        · subst h; simpa [dremove, hp] using ih
        · have hp' : p.1 ≠ k' := by rw [hp]; exact Ne.symm h
          simp only [dremove, if_pos hp, ih, if_neg h, dget, if_neg hp']
      · rcases eq_or_ne p.1 k' with hq | hq
        · have h : k' ≠ k := fun he => hp (hq.trans he)
          simp [dremove, dget, hp, hq, h]
        · simp [dremove, dget, hp, hq, ih]

/-! ## The post-fetch step -/

theorem afterFetch_snd (tbl : List (String × String)) (f : ℚ → ℚ → ℚ × String)
    (st : ClientState) (data : JsonVal) :
    (afterFetch tbl f st data).2 = parsePayload tbl f data := by
  unfold afterFetch parsePayload
  cases h : pySubscr data "software_version" <;> simp [h]

theorem afterFetch_fst (tbl : List (String × String)) (f : ℚ → ℚ → ℚ × String)
    (st : ClientState) (data : JsonVal) :
    (afterFetch tbl f st data).1.update_errors = st.update_errors ∧
    (afterFetch tbl f st data).1.last_data = st.last_data := by
  unfold afterFetch
  cases h : pySubscr data "software_version" <;> simp [h]

/-! ## Claims -/

/-- C3: `_async_http_request` classifies every outcome: a 401 raises
`AuthFailedError`; any other non-2xx status raises `ApiError` annotated
with the numeric status; a connector failure or timeout raises
`NotRespondingError`; on success (status 200) the raw response is
returned.  The function is total into `Except NamError`, so no raw
transport exception crosses this boundary. -/
theorem claim3_http_request_classification :
    (∀ host body, async_http_request host (.resp 401 body) =
        .error (.authFailed "Authorization has failed")) ∧
    (∀ host st body, ¬(200 ≤ st ∧ st < 300) → st ≠ 401 →
        async_http_request host (.resp st body) =
          .error (.apiError ("Invalid response from device " ++ host ++ ": " ++ toString st))) ∧
    (∀ host, async_http_request host .connError =
        .error (.notResponding ("The device " ++ host ++ " is not responding")) ∧
      async_http_request host .timeout =
        .error (.notResponding ("The device " ++ host ++ " is not responding"))) ∧
    (∀ host body, async_http_request host (.resp 200 body) = .ok ⟨200, body⟩) := by
  refine ⟨fun host body => by norm_num [async_http_request], ?_,
    fun host => ⟨rfl, rfl⟩, fun host body => by norm_num [async_http_request]⟩
  intro host st body h h401
  simp only [async_http_request]
  by_cases h4 : 400 ≤ st
  · rw [if_pos h4, if_neg h401]
  · rw [if_neg h4, if_pos (by omega)]

theorem claim3_witness :
    async_http_request "nam" (.resp 500 .null) =
      .error (.apiError ("Invalid response from device " ++ "nam" ++ ": " ++ toString 500)) :=
  claim3_http_request_classification.2.1 "nam" 500 .null (by omega) (by omega)

/-- C2: a `NotResponding` fetch with an empty last-data cache makes
`async_update` raise `ApiError` carrying the original failure's status
detail, without touching the state (no stale-cache fallback). -/
theorem claim2_no_cache_api_error :
    ∀ tbl f cacheN (st : ClientState) sr,
      (sr = SessionResult.connError ∨ sr = SessionResult.timeout) →
      truthy st.last_data = false →
      async_update tbl f cacheN st sr =
        (st, .error (.nam (.apiError ("The device " ++ st.host ++ " is not responding")))) := by
  intro tbl f cacheN st sr hsr ht
  rcases hsr with h | h <;> subst h <;>
    simp [async_update, async_http_request, ht]

theorem claim2_witness :
    async_update [] (fun _ _ => (0, "")) 5 (initState "nam") .connError =
      (initState "nam",
        .error (.nam (.apiError ("The device " ++ (initState "nam").host ++ " is not responding")))) :=
  claim2_no_cache_api_error [] (fun _ _ => (0, "")) 5 (initState "nam") .connError
    (Or.inl rfl) rfl

/-- C7: `initialize` against a 401 on the config fetch sets the cached
auth-enabled flag to `True` and leaves the cached software version as it
was (unset on a fresh instance); against a valid config response it sets
the flag to exactly the `www_basicauth_enabled` field and the software
version to exactly the `SOFTWARE_VERSION` field, defaulting to the empty
string when that field is absent. -/
theorem claim7_initialize_fields :
    (∀ st body,
        (deviceInit st (.resp 401 body)).1.auth_enabled = JsonVal.bool true ∧
        (deviceInit st (.resp 401 body)).1.software_version = st.software_version ∧
        (deviceInit st (.resp 401 body)).2 = .ok ()) ∧
    (∀ st kvs v, lookupObj kvs "www_basicauth_enabled" = some v →
        (deviceInit st (.resp 200 (.obj kvs))).1.auth_enabled = v ∧
        (deviceInit st (.resp 200 (.obj kvs))).1.software_version =
          some ((lookupObj kvs "SOFTWARE_VERSION").getD (.str "")) ∧
        (deviceInit st (.resp 200 (.obj kvs))).2 = .ok ()) := by
  constructor
  · intro st body
    norm_num [deviceInit, async_check_credentials, async_http_request]
  · intro st kvs v hv
    norm_num [deviceInit, async_check_credentials, async_http_request,
      pySubscr, pyGetD, hv]

theorem claim7_witness :
    (deviceInit (initState "nam") (.resp 401 .null)).1.auth_enabled = JsonVal.bool true ∧
    (deviceInit (initState "nam") (.resp 401 .null)).1.software_version =
      (initState "nam").software_version ∧
    (deviceInit (initState "nam") (.resp 401 .null)).2 = .ok () :=
  claim7_initialize_fields.1 (initState "nam") .null

/-- C9: when the (fresh or cache-substituted) payload lacks the
`software_version` key, `async_update` fails with a plain `KeyError` —
a Python-level error, not one of the library's domain error kinds —
regardless of the rest of the payload, i.e. before any sensor parsing. -/
theorem claim9_missing_software_version_keyerror :
    (∀ tbl f cacheN (st : ClientState) kvs,
        lookupObj kvs "software_version" = none →
        async_update tbl f cacheN st (.resp 200 (.obj kvs)) =
          ({ st with last_data := .obj kvs, update_errors := 0 },
            .error (.py .keyError))) ∧
    (∀ tbl f cacheN (st : ClientState) kvs,
        lookupObj kvs "software_version" = none →
        st.last_data = .obj kvs → truthy (.obj kvs) = true →
        st.update_errors ≤ cacheN →
        (async_update tbl f cacheN st .connError).2 = .error (.py .keyError)) := by
  constructor
  · intro tbl f cacheN st kvs hk
    norm_num [async_update, async_http_request, afterFetch, pySubscr, hk]
  · intro tbl f cacheN st kvs hk hld htr hle
    have step : async_update tbl f cacheN st .connError =
        if st.update_errors ≤ cacheN ∧ truthy st.last_data = true then
          afterFetch tbl f { st with update_errors := st.update_errors + 1 } st.last_data
        else
          (st, .error (.nam (.apiError ("The device " ++ st.host ++ " is not responding")))) := rfl
    rw [step, if_pos ⟨hle, by rw [hld]; exact htr⟩, hld]
    simp [afterFetch, pySubscr, hk]

theorem claim9_witness :
    async_update [] (fun _ _ => (0, "")) 5 (initState "nam")
        (.resp 200 (.obj [("sensordatavalues", .list [])])) =
      ({ initState "nam" with
          last_data := .obj [("sensordatavalues", .list [])],
          update_errors := 0 },
        .error (.py .keyError)) :=
  claim9_missing_software_version_keyerror.1 [] (fun _ _ => (0, "")) 5
    (initState "nam") [("sensordatavalues", .list [])] rfl

/-- C1: a `NotResponding` fetch with the failure counter within the
threshold (`failures <= RESPONSES_FROM_CACHE`, the exact comparison of the
code) and a non-empty last-data cache makes `async_update` return the
sensors parsed from the stored payload, incrementing the failure counter by
exactly 1 and leaving the cache unchanged; and every successful fetch
resets the counter to 0 and overwrites the stored payload with the new
one. -/
theorem claim1_stale_cache_and_reset :
    (∀ tbl f cacheN (st : ClientState) sr,
        (sr = SessionResult.connError ∨ sr = SessionResult.timeout) →
        st.update_errors ≤ cacheN → truthy st.last_data = true →
        (async_update tbl f cacheN st sr).1.update_errors = st.update_errors + 1 ∧
        (async_update tbl f cacheN st sr).1.last_data = st.last_data ∧
        (async_update tbl f cacheN st sr).2 = parsePayload tbl f st.last_data) ∧
    (∀ tbl f cacheN (st : ClientState) body,
        (async_update tbl f cacheN st (.resp 200 body)).1.update_errors = 0 ∧
        (async_update tbl f cacheN st (.resp 200 body)).1.last_data = body) := by
  constructor
  · intro tbl f cacheN st sr hsr hle htr
    have step : async_update tbl f cacheN st sr =
        afterFetch tbl f { st with update_errors := st.update_errors + 1 } st.last_data := by
      rcases hsr with h | h <;> subst h
      · rw [show async_update tbl f cacheN st SessionResult.connError =
            if st.update_errors ≤ cacheN ∧ truthy st.last_data = true then
              afterFetch tbl f { st with update_errors := st.update_errors + 1 } st.last_data
            else
              (st, .error (.nam (.apiError ("The device " ++ st.host ++ " is not responding"))))
            from rfl, if_pos ⟨hle, htr⟩]
      · rw [show async_update tbl f cacheN st SessionResult.timeout =
            if st.update_errors ≤ cacheN ∧ truthy st.last_data = true then
              afterFetch tbl f { st with update_errors := st.update_errors + 1 } st.last_data
            else
              (st, .error (.nam (.apiError ("The device " ++ st.host ++ " is not responding"))))
            from rfl, if_pos ⟨hle, htr⟩]
    rw [step]
    exact ⟨(afterFetch_fst tbl f _ st.last_data).1, (afterFetch_fst tbl f _ st.last_data).2,
      afterFetch_snd tbl f _ st.last_data⟩
  · intro tbl f cacheN st body
    have step : async_update tbl f cacheN st (.resp 200 body) =
        afterFetch tbl f { st with last_data := body, update_errors := 0 } body := rfl
    rw [step]
    exact ⟨(afterFetch_fst tbl f _ body).1, (afterFetch_fst tbl f _ body).2⟩

theorem claim1_witness :
    (async_update [] (fun _ _ => (0, "")) 5 sampleState .connError).1.update_errors =
      sampleState.update_errors + 1 ∧
    (async_update [] (fun _ _ => (0, "")) 5 sampleState .connError).1.last_data =
      sampleState.last_data ∧
    (async_update [] (fun _ _ => (0, "")) 5 sampleState .connError).2 =
      parsePayload [] (fun _ _ => (0, "")) sampleState.last_data :=
  claim1_stale_cache_and_reset.1 [] (fun _ _ => (0, "")) 5 sampleState .connError
    (Or.inl rfl) (by decide) rfl

/-! ## The comprehension: last duplicate wins -/

theorem lastRawAux_acc (xs : List JsonVal) (k : String) :
    ∀ a, lastRawAux a xs k =
      match lastRawAux none xs k with
      | some r => some r
      | none => a := by
  induction xs with
  | nil => intro a; simp [lastRawAux]
  | cons item rest ih =>
      intro a
      cases h : itemKV item with
      | error e =>
          simp only [lastRawAux, h]
          exact ih a
      | ok p =>
          simp only [lastRawAux, h]
          by_cases hk : p.1 = k
          · rw [if_pos hk, if_pos hk, ih (some p.2)]
            cases lastRawAux none rest k <;> rfl
          · rw [if_neg hk, if_neg hk, ih a]

theorem comprehensionAux_dget (xs : List JsonVal) (k : String) :
    ∀ m0 m, comprehensionAux m0 xs = .ok m →
      dget m k =
        match lastRaw xs k with
        | some r => some (SVal.num (round1 r))
        | none => dget m0 k := by
  induction xs with
  | nil =>
      intro m0 m hm
      cases hm
      simp [lastRaw, lastRawAux]
  | cons item rest ih =>
      intro m0 m hm
      simp only [comprehensionAux] at hm
      cases h : itemKV item with
      | error e => rw [h] at hm; cases hm
      | ok p =>
          rw [h] at hm
          rw [ih (dinsert m0 p.1 (SVal.num (round1 p.2))) m hm]
          have hacc : lastRaw (item :: rest) k =
              match lastRaw rest k with
              | some r => some r
              | none => if p.1 = k then some p.2 else none := by
            simp only [lastRaw, lastRawAux, h]
            exact lastRawAux_acc rest k (if p.1 = k then some p.2 else none)
          rw [hacc]
          cases lastRaw rest k with
          | some r => rfl
          | none =>
              by_cases hk : p.1 = k
              · simp only [if_pos hk, dget_dinsert, if_pos hk.symm]
              · simp only [if_neg hk, dget_dinsert,
                  if_neg (fun he : k = p.1 => hk he.symm)]

/-- C10: when `sensordatavalues` holds several readings with the same
lower-cased `value_type`, the dict comprehension keeps the normalized value
of the last such reading in list order, overwriting earlier duplicates. -/
theorem claim10_last_duplicate_wins :
    ∀ xs m k, sensorComprehension xs = .ok m →
      dget m k = (lastRaw xs k).map (fun r => SVal.num (round1 r)) := by
  intro xs m k hm
  rw [sensorComprehension] at hm
  rw [comprehensionAux_dget xs k [] m hm]
  cases lastRaw xs k <;> rfl

theorem claim10_witness :
    sensorComprehension
        [.obj [("value_type", .str "Temp"), ("value", .num 1)],
         .obj [("value_type", .str "temp"), ("value", .num 2)]] =
      .ok [("temp", SVal.num (round1 2))] ∧
    dget [("temp", SVal.num (round1 2))] "temp" =
      (lastRaw
          [.obj [("value_type", .str "Temp"), ("value", .num 1)],
           .obj [("value_type", .str "temp"), ("value", .num 2)]] "temp").map
        (fun r => SVal.num (round1 r)) :=
  ⟨rfl,
    claim10_last_duplicate_wins
      [.obj [("value_type", .str "Temp"), ("value", .num 1)],
       .obj [("value_type", .str "temp"), ("value", .num 2)]]
      [("temp", SVal.num (round1 2))] "temp" rfl⟩

/-! ## The pressure loop -/

theorem pressureStep_dget (m : PDict) :
    ∀ m', pressureStep m = .ok m' →
      ∀ k, dget m' k = (dget m k).map (transformP k) := by
  induction m with
  | nil =>
      intro m' hp k
      cases hp
      rfl
  | cons p rest ih =>
      intro m' hp k
      obtain ⟨k0, v0⟩ := p
      by_cases hc : strContains k0 "pressure" = true ∧ v0 ≠ SVal.none_
      · simp only [pressureStep, if_pos hc] at hp
        cases hv : sdiv100 v0 with
        | error e => simp [hv] at hp
        | ok v' =>
            rw [hv] at hp
            cases hr : pressureStep rest with
            | error e => simp [hr] at hp
            | ok rest' =>
                rw [hr] at hp
                have hm : ((k0, v') :: rest' : PDict) = m' := by simpa using hp
                subst hm
                by_cases hk : k0 = k
                · subst hk
                  cases v0 with
                  | num q =>
                      have hv' : v' = SVal.num (q / 100) := by
                        simpa [sdiv100] using hv.symm
                      subst hv'
                      have htp : transformP k0 (SVal.num q) = SVal.num (q / 100) := by
                        rw [transformP, if_pos hc]; rfl
                      simp [dget, htp]
                  | str s => simp [sdiv100] at hv
                  | none_ => exact absurd rfl hc.2
                · simp only [dget, if_neg hk]
                  exact ih rest' hr k
      · simp only [pressureStep, if_neg hc] at hp
        cases hr : pressureStep rest with
        | error e => simp [hr] at hp
        | ok rest' =>
            rw [hr] at hp
            have hm : ((k0, v0) :: rest' : PDict) = m' := by simpa using hp
            subst hm
            by_cases hk : k0 = k
            · subst hk
              have ht : transformP k0 v0 = v0 := by
                rw [transformP, if_neg hc]
              simp [dget, ht]
            · simp only [dget, if_neg hk]
              exact ih rest' hr k

/-! ## Rename frame lemmas -/

theorem renameStep_dget_other (m : PDict) (okey nkey k : String)
    (ho : okey ≠ k) (hn : nkey ≠ k) :
    dget (renameStep m okey nkey) k = dget m k := by
  unfold renameStep
  cases h : dget m okey with
  | none => rfl
  | some v =>
      show dget (if v ≠ SVal.none_ then dinsert (dremove m okey) nkey v else m) k =
        dget m k
      by_cases hv : v ≠ SVal.none_
      · rw [if_pos hv, dget_dinsert, if_neg (fun he : k = nkey => hn he.symm),
          dget_dremove, if_neg (fun he : k = okey => ho he.symm)]
      · rw [if_neg hv]

theorem applyRename_cons (q : String × String) (tbl : List (String × String))
    (m : PDict) :
    applyRename (q :: tbl) m = applyRename tbl (renameStep m q.1 q.2) := rfl

theorem applyRename_frame (tbl : List (String × String)) :
    ∀ (m : PDict) (k : String), (∀ p ∈ tbl, p.1 ≠ k ∧ p.2 ≠ k) →
      dget (applyRename tbl m) k = dget m k := by
  induction tbl with
  | nil => intro m k _; rfl
  | cons q tbl' ih =>
      intro m k h
      have hq := h q (by simp)
      rw [applyRename_cons, ih _ k (fun p hp => h p (by simp [hp])),
        renameStep_dget_other m q.1 q.2 k hq.1 hq.2]

theorem renameStep_eq_of_get (m : PDict) (okey nkey : String) (v : SVal)
    (hget : dget m okey = some v) (hv : v ≠ SVal.none_) :
    renameStep m okey nkey = dinsert (dremove m okey) nkey v := by
  unfold renameStep
  rw [hget]
  show (if v ≠ SVal.none_ then dinsert (dremove m okey) nkey v else m) = _
  rw [if_pos hv]

theorem renameStep_eq_self (m : PDict) (okey nkey : String)
    (h : dget m okey = none ∨ dget m okey = some SVal.none_) :
    renameStep m okey nkey = m := by
  unfold renameStep
  rcases h with h | h
  · rw [h]
  · rw [h]
    show (if SVal.none_ ≠ SVal.none_ then dinsert (dremove m okey) nkey SVal.none_ else m) = m
    rw [if_neg (by simp)]

theorem applyRename_moves :
    ∀ (tbl : List (String × String)) (m : PDict) (okey nkey : String) (v : SVal),
      (tbl.map Prod.fst).Nodup → (tbl.map Prod.snd).Nodup →
      (∀ p ∈ tbl, ∀ q ∈ tbl, p.1 ≠ q.2) →
      (okey, nkey) ∈ tbl →
      dget m okey = some v → v ≠ SVal.none_ →
      dget (applyRename tbl m) okey = none ∧ dget (applyRename tbl m) nkey = some v := by
  intro tbl
  induction tbl with
  | nil =>
      intro m okey nkey v _ _ _ hmem
      cases hmem
  | cons q0 tbl' ih =>
      intro m okey nkey v hno hnn hdisj hmem hget hv
      obtain ⟨o0, n0⟩ := q0
      have hno' : o0 ∉ tbl'.map Prod.fst ∧ (tbl'.map Prod.fst).Nodup := by
        simpa using hno
      have hnn' : n0 ∉ tbl'.map Prod.snd ∧ (tbl'.map Prod.snd).Nodup := by
        simpa using hnn
      rw [applyRename_cons]
      rcases List.mem_cons.mp hmem with heq | htail
      · cases heq
        have hok_ne_nk : okey ≠ nkey :=
          hdisj (okey, nkey) (List.mem_cons_self _ _) (okey, nkey) (List.mem_cons_self _ _)
        rw [renameStep_eq_of_get m okey nkey v hget hv]
        have hofr : ∀ p ∈ tbl', p.1 ≠ okey ∧ p.2 ≠ okey := by
          intro p hp
          refine ⟨fun he => hno'.1 (he ▸ List.mem_map_of_mem Prod.fst hp), fun he => ?_⟩
          exact hdisj (okey, nkey) (List.mem_cons_self _ _) p (List.mem_cons_of_mem _ hp)
            he.symm
        have hnfr : ∀ p ∈ tbl', p.1 ≠ nkey ∧ p.2 ≠ nkey := by
          intro p hp
          refine ⟨fun he => ?_, fun he => hnn'.1 (he ▸ List.mem_map_of_mem Prod.snd hp)⟩
          exact hdisj p (List.mem_cons_of_mem _ hp) (okey, nkey) (List.mem_cons_self _ _) he
        rw [applyRename_frame tbl' _ okey hofr, applyRename_frame tbl' _ nkey hnfr]
        constructor
        · rw [dget_dinsert, if_neg hok_ne_nk, dget_dremove, if_pos rfl]
        · rw [dget_dinsert, if_pos rfl]
      · have ho0 : o0 ≠ okey := fun he =>
          hno'.1 (he ▸ List.mem_map_of_mem Prod.fst htail)
        have hn0 : n0 ≠ okey := fun he =>
          hdisj (okey, nkey) (List.mem_cons_of_mem _ htail) (o0, n0)
            (List.mem_cons_self _ _) he.symm
        have hget' : dget (renameStep m o0 n0) okey = some v := by
          rw [renameStep_dget_other m o0 n0 okey ho0 hn0, hget]
        exact ih (renameStep m o0 n0) okey nkey v hno'.2 hnn'.2
          (fun p hp q hq =>
            hdisj p (List.mem_cons_of_mem _ hp) q (List.mem_cons_of_mem _ hq))
          htail hget' hv

theorem applyRename_no_create :
    ∀ (tbl : List (String × String)) (m : PDict) (okey nkey : String),
      (tbl.map Prod.fst).Nodup → (tbl.map Prod.snd).Nodup →
      (∀ p ∈ tbl, ∀ q ∈ tbl, p.1 ≠ q.2) →
      (okey, nkey) ∈ tbl →
      (dget m okey = none ∨ dget m okey = some SVal.none_) →
      dget m nkey = none →
      dget (applyRename tbl m) nkey = none := by
  intro tbl
  induction tbl with
  | nil =>
      intro m okey nkey _ _ _ hmem
      cases hmem
  | cons q0 tbl' ih =>
      intro m okey nkey hno hnn hdisj hmem hnull hnk
      obtain ⟨o0, n0⟩ := q0
      have hno' : o0 ∉ tbl'.map Prod.fst ∧ (tbl'.map Prod.fst).Nodup := by
        simpa using hno
      have hnn' : n0 ∉ tbl'.map Prod.snd ∧ (tbl'.map Prod.snd).Nodup := by
        simpa using hnn
      rw [applyRename_cons]
      rcases List.mem_cons.mp hmem with heq | htail
      · cases heq
        rw [renameStep_eq_self m okey nkey hnull]
        have hnfr : ∀ p ∈ tbl', p.1 ≠ nkey ∧ p.2 ≠ nkey := by
          intro p hp
          refine ⟨fun he => ?_, fun he => hnn'.1 (he ▸ List.mem_map_of_mem Prod.snd hp)⟩
          exact hdisj p (List.mem_cons_of_mem _ hp) (okey, nkey) (List.mem_cons_self _ _) he
        rw [applyRename_frame tbl' _ nkey hnfr]
        exact hnk
      · have ho0 : o0 ≠ okey := fun he =>
          hno'.1 (he ▸ List.mem_map_of_mem Prod.fst htail)
        have hn0ok : n0 ≠ okey := fun he =>
          hdisj (okey, nkey) (List.mem_cons_of_mem _ htail) (o0, n0)
            (List.mem_cons_self _ _) he.symm
        have ho0nk : o0 ≠ nkey := fun he =>
          hdisj (o0, n0) (List.mem_cons_self _ _) (okey, nkey)
            (List.mem_cons_of_mem _ htail) he
        have hn0nk : n0 ≠ nkey := fun he =>
          hnn'.1 (he ▸ List.mem_map_of_mem Prod.snd htail)
        have hnull' : dget (renameStep m o0 n0) okey = none ∨
            dget (renameStep m o0 n0) okey = some SVal.none_ := by
          rw [renameStep_dget_other m o0 n0 okey ho0 hn0ok]
          exact hnull
        have hnk' : dget (renameStep m o0 n0) nkey = none := by
          rw [renameStep_dget_other m o0 n0 nkey ho0nk hn0nk]
          exact hnk
        exact ih (renameStep m o0 n0) okey nkey hno'.2 hnn'.2
          (fun p hp q hq =>
            hdisj p (List.mem_cons_of_mem _ hp) q (List.mem_cons_of_mem _ hq))
          htail hnull' hnk'

theorem applyRename_noop :
    ∀ (tbl : List (String × String)) (m : PDict),
      (∀ p ∈ tbl, ∀ v, dget m p.1 = some v → v = SVal.none_) →
      applyRename tbl m = m := by
  intro tbl
  induction tbl with
  | nil => intro m _; rfl
  | cons q0 tbl' ih =>
      intro m h
      obtain ⟨o0, n0⟩ := q0
      rw [applyRename_cons]
      have hstep : renameStep m o0 n0 = m := by
        apply renameStep_eq_self
        cases hg : dget m o0 with
        | none => exact Or.inl rfl
        | some v => exact Or.inr (by rw [h (o0, n0) (List.mem_cons_self _ _) v hg])
      rw [hstep]
      exact ih m (fun p hp v hv => h p (List.mem_cons_of_mem _ hp) v hv)

theorem applyRename_kills :
    ∀ (tbl : List (String × String)) (m : PDict),
      (tbl.map Prod.fst).Nodup → (tbl.map Prod.snd).Nodup →
      (∀ p ∈ tbl, ∀ q ∈ tbl, p.1 ≠ q.2) →
      ∀ p ∈ tbl, ∀ v, dget (applyRename tbl m) p.1 = some v → v = SVal.none_ := by
  intro tbl
  induction tbl with
  | nil =>
      intro m _ _ _ p hp
      cases hp
  | cons q0 tbl' ih =>
      intro m hno hnn hdisj p hp v hv
      obtain ⟨o0, n0⟩ := q0
      have hno' : o0 ∉ tbl'.map Prod.fst ∧ (tbl'.map Prod.fst).Nodup := by
        simpa using hno
      have hnn' : n0 ∉ tbl'.map Prod.snd ∧ (tbl'.map Prod.snd).Nodup := by
        simpa using hnn
      rw [applyRename_cons] at hv
      rcases List.mem_cons.mp hp with heq | htail
      · cases heq
        have hfr : ∀ q ∈ tbl', q.1 ≠ o0 ∧ q.2 ≠ o0 := by
          intro q hq
          refine ⟨fun he => hno'.1 (he ▸ List.mem_map_of_mem Prod.fst hq), fun he => ?_⟩
          exact hdisj (o0, n0) (List.mem_cons_self _ _) q (List.mem_cons_of_mem _ hq)
            he.symm
        rw [applyRename_frame tbl' _ o0 hfr] at hv
        cases hg : dget m o0 with
        | none =>
            rw [renameStep_eq_self m o0 n0 (Or.inl hg), hg] at hv
            cases hv
        | some v0 =>
            by_cases hv0 : v0 ≠ SVal.none_
            · rw [renameStep_eq_of_get m o0 n0 v0 hg hv0, dget_dinsert,
                if_neg (hdisj (o0, n0) (List.mem_cons_self _ _) (o0, n0)
                  (List.mem_cons_self _ _)),
                dget_dremove, if_pos rfl] at hv
              cases hv
            · rw [not_not] at hv0
              subst hv0
              rw [renameStep_eq_self m o0 n0 (Or.inr hg), hg] at hv
              cases hv
              rfl
      · exact ih (renameStep m o0 n0) hno'.2 hnn'.2
          (fun a ha b hb =>
            hdisj a (List.mem_cons_of_mem _ ha) b (List.mem_cons_of_mem _ hb))
          p htail v hv

theorem parse_sensor_data_ok (tbl : List (String × String)) (data : JsonVal)
    (mfin : PDict) (h : parse_sensor_data tbl data = .ok mfin) :
    ∃ xs m0 m1, iterElems data = .ok xs ∧ sensorComprehension xs = .ok m0 ∧
      pressureStep m0 = .ok m1 ∧ mfin = applyRename tbl m1 := by
  unfold parse_sensor_data at h
  split at h
  · cases h
  · rename_i xs hxs
    split at h
    · cases h
    · rename_i m0 hm0
      split at h
      · cases h
      · rename_i m1 hm1
        cases h
        exact ⟨xs, m0, m1, hxs, hm0, hm1, rfl⟩

/-- C5: the legacy-key rename step is idempotent and exclusive.  For a
rename table whose old keys are distinct, whose new keys are distinct, and
whose old keys never appear as new keys (the shape of a legacy-to-canonical
table): an old key present with a non-null value is moved — afterwards the
old key is absent and its value sits under the new key, not duplicated; if
the old key's value is null or the old key is absent, the renaming does not
create the new key; and applying the rename step twice equals applying it
once. -/
theorem claim5_rename_exclusive_idempotent :
    ∀ (tbl : List (String × String)) (m : PDict) (okey nkey : String),
      (tbl.map Prod.fst).Nodup →
      (tbl.map Prod.snd).Nodup →
      (∀ p ∈ tbl, ∀ q ∈ tbl, p.1 ≠ q.2) →
      (okey, nkey) ∈ tbl →
      ((∀ v, dget m okey = some v → v ≠ SVal.none_ →
          dget (applyRename tbl m) okey = none ∧
          dget (applyRename tbl m) nkey = some v) ∧
        ((dget m okey = none ∨ dget m okey = some SVal.none_) →
          dget m nkey = none → dget (applyRename tbl m) nkey = none) ∧
        applyRename tbl (applyRename tbl m) = applyRename tbl m) := by
  intro tbl m okey nkey hno hnn hdisj hmem
  refine ⟨fun v hg hv => applyRename_moves tbl m okey nkey v hno hnn hdisj hmem hg hv,
    fun hnull hnk => applyRename_no_create tbl m okey nkey hno hnn hdisj hmem hnull hnk,
    applyRename_noop tbl (applyRename tbl m)
      (fun p hp v hv => applyRename_kills tbl m hno hnn hdisj p hp v hv)⟩

theorem claim5_witness :
    dget (applyRename [("sds_p1", "sds011_p1")] [("sds_p1", SVal.num 5)]) "sds_p1" =
      none ∧
    dget (applyRename [("sds_p1", "sds011_p1")] [("sds_p1", SVal.num 5)]) "sds011_p1" =
      some (SVal.num 5) ∧
    applyRename [("sds_p1", "sds011_p1")]
        (applyRename [("sds_p1", "sds011_p1")] [("sds_p1", SVal.num 5)]) =
      applyRename [("sds_p1", "sds011_p1")] [("sds_p1", SVal.num 5)] := by
  obtain ⟨h1, _, h3⟩ := claim5_rename_exclusive_idempotent
    [("sds_p1", "sds011_p1")] [("sds_p1", SVal.num 5)] "sds_p1" "sds011_p1"
    (by decide) (by decide) (by decide) (by decide)
  obtain ⟨ha, hb⟩ := h1 (SVal.num 5) rfl (by decide)
  exact ⟨ha, hb, h3⟩

/-- C4: a reading whose lower-cased `value_type` contains `"pressure"` is
stored in the normalized map as `round(raw, 1) / 100`: the rounding to one
decimal place happens first and the division by 100 applies to the rounded
value.  (`r` is the raw value of the last reading with that key, and the
rename table is assumed not to touch the key, as the legacy rename pairs do
not.) -/
theorem claim4_pressure_round_then_divide :
    ∀ tbl xs k r mfin,
      strContains k "pressure" = true →
      (∀ p ∈ tbl, p.1 ≠ k ∧ p.2 ≠ k) →
      lastRaw xs k = some r →
      parse_sensor_data tbl (.list xs) = .ok mfin →
      dget mfin k = some (SVal.num (round1 r / 100)) := by
  intro tbl xs k r mfin hpk htbl hlast hparse
  obtain ⟨xs', m0, m1, hxs, hm0, hm1, hfin⟩ :=
    parse_sensor_data_ok tbl (.list xs) mfin hparse
  have hxs' : xs = xs' := by simpa [iterElems] using hxs
  subst hxs'
  subst hfin
  rw [applyRename_frame tbl m1 k htbl, pressureStep_dget m0 m1 hm1 k,
    claim10_last_duplicate_wins xs m0 k hm0, hlast]
  simp [transformP, sdivP, hpk]

theorem claim4_witness :
    dget [("bme280_pressure", SVal.num (round1 (202825 / 2) / 100))] "bme280_pressure" =
      some (SVal.num (round1 (202825 / 2) / 100)) :=
  claim4_pressure_round_then_divide []
    [.obj [("value_type", .str "BME280_pressure"), ("value", .num (202825 / 2))]]
    "bme280_pressure" (202825 / 2)
    [("bme280_pressure", SVal.num (round1 (202825 / 2) / 100))]
    (by decide) (by simp) rfl rfl

/-! ## The CAQI derivation loop -/

theorem caqiFamily_frame (f : ℚ → ℚ → ℚ × String) (m : PDict) (s k : String)
    (h1 : k ≠ s ++ "_caqi") (h2 : k ≠ s ++ "_caqi_level") :
    dget (caqiFamily f m s) k = dget m k := by
  unfold caqiFamily
  cases hg : get_caqi f (dgetNum m (s ++ "_p1")) (dgetNum m (s ++ "_p2")) with
  | mk val lvl =>
      cases val with
      | none => rfl
      | some value =>
          show dget (if value > -1 then
              dinsert (dinsert m (s ++ "_caqi") (SVal.num value)) (s ++ "_caqi_level")
                (SVal.str (replaceSpaceUnderscore lvl))
            else m) k = dget m k
          by_cases hvv : value > -1
          · rw [if_pos hvv, dget_dinsert, if_neg h2, dget_dinsert, if_neg h1]
          · rw [if_neg hvv]

theorem caqiFamily_dgetNum_frame (f : ℚ → ℚ → ℚ × String) (m : PDict) (s k : String)
    (h1 : k ≠ s ++ "_caqi") (h2 : k ≠ s ++ "_caqi_level") :
    dgetNum (caqiFamily f m s) k = dgetNum m k := by
  unfold dgetNum
  rw [caqiFamily_frame f m s k h1 h2]

theorem caqiFamily_pos (f : ℚ → ℚ → ℚ × String) (m : PDict) (s : String) (a b : ℚ)
    (hs : (s ++ "_caqi" : String) ≠ s ++ "_caqi_level")
    (h1 : dgetNum m (s ++ "_p1") = some a) (h2 : dgetNum m (s ++ "_p2") = some b)
    (hv : (f a b).1 > -1) :
    dget (caqiFamily f m s) (s ++ "_caqi") = some (SVal.num (f a b).1) ∧
    dget (caqiFamily f m s) (s ++ "_caqi_level") =
      some (SVal.str (replaceSpaceUnderscore (f a b).2)) := by
  have hfam : caqiFamily f m s =
      if (f a b).1 > -1 then
        dinsert (dinsert m (s ++ "_caqi") (SVal.num (f a b).1)) (s ++ "_caqi_level")
          (SVal.str (replaceSpaceUnderscore (f a b).2))
      else m := by
    unfold caqiFamily
    rw [h1, h2]
    rfl
  rw [hfam, if_pos hv]
  constructor
  · rw [dget_dinsert, if_neg hs, dget_dinsert, if_pos rfl]
  · rw [dget_dinsert, if_pos rfl]

theorem caqiFamily_neg (f : ℚ → ℚ → ℚ × String) (m : PDict) (s : String)
    (h : dgetNum m (s ++ "_p1") = none ∨ dgetNum m (s ++ "_p2") = none ∨
      (∃ a b, dgetNum m (s ++ "_p1") = some a ∧ dgetNum m (s ++ "_p2") = some b ∧
        ¬((f a b).1 > -1))) :
    caqiFamily f m s = m := by
  unfold caqiFamily
  rcases h with h | h | ⟨a, b, ha, hb, hv⟩
  · rw [h]
    rfl
  · rw [h]
    cases hp1 : dgetNum m (s ++ "_p1") with
    | none => rfl
    | some a => rfl
  · rw [ha, hb]
    show (if (f a b).1 > -1 then
        dinsert (dinsert m (s ++ "_caqi") (SVal.num (f a b).1)) (s ++ "_caqi_level")
          (SVal.str (replaceSpaceUnderscore (f a b).2))
      else m) = m
    rw [if_neg hv]

theorem caqiStep_eq (f : ℚ → ℚ → ℚ × String) (m : PDict) :
    caqiStep f m =
      caqiFamily f (caqiFamily f (caqiFamily f m "pms") "sds011") "sps30" := rfl

/-- C6: for each particulate family prefix (`pms`, `sds011`, `sps30`),
`async_update`'s derivation loop adds the two fields — the index value
under `<s>_caqi` and the level with spaces replaced by underscores under
`<s>_caqi_level` — if and only if both the family's PM10 (`<s>_p1`) and
PM2.5 (`<s>_p2`) readings are present and the computed index is a valid
non-negative value (the code's `value is not None and value > -1`, where
the modelled external function yields no value on missing inputs); when the
inputs are missing or the index is invalid the family is skipped, leaving
the map untouched, and the loop is a total function, never failing the
whole operation. -/
theorem claim6_caqi_derivation :
    ∀ (f : ℚ → ℚ → ℚ × String) (m : PDict),
      (∀ s ∈ FAMILIES,
        dget m (s ++ "_caqi") = none ∧ dget m (s ++ "_caqi_level") = none) →
      ∀ s ∈ FAMILIES,
        (∀ a b, dgetNum m (s ++ "_p1") = some a → dgetNum m (s ++ "_p2") = some b →
          (f a b).1 > -1 →
          dget (caqiStep f m) (s ++ "_caqi") = some (SVal.num (f a b).1) ∧
          dget (caqiStep f m) (s ++ "_caqi_level") =
            some (SVal.str (replaceSpaceUnderscore (f a b).2))) ∧
        ((dgetNum m (s ++ "_p1") = none ∨ dgetNum m (s ++ "_p2") = none ∨
            (∃ a b, dgetNum m (s ++ "_p1") = some a ∧ dgetNum m (s ++ "_p2") = some b ∧
              ¬((f a b).1 > -1))) →
          dget (caqiStep f m) (s ++ "_caqi") = none ∧
          dget (caqiStep f m) (s ++ "_caqi_level") = none) := by
  intro f m habs s hs
  rcases (show s = "pms" ∨ s = "sds011" ∨ s = "sps30" by
    simpa [FAMILIES] using hs) with h | h | h <;> subst h
  · constructor
    · intro a b hp1 hp2 hv
      have hpos := caqiFamily_pos f m "pms" a b (by decide) hp1 hp2 hv
      constructor
      · rw [caqiStep_eq,
          caqiFamily_frame f _ "sps30" ("pms" ++ "_caqi") (by decide) (by decide),
          caqiFamily_frame f _ "sds011" ("pms" ++ "_caqi") (by decide) (by decide)]
        exact hpos.1
      · rw [caqiStep_eq,
          caqiFamily_frame f _ "sps30" ("pms" ++ "_caqi_level") (by decide) (by decide),
          caqiFamily_frame f _ "sds011" ("pms" ++ "_caqi_level") (by decide) (by decide)]
        exact hpos.2
    · intro hcond
      have hneg := caqiFamily_neg f m "pms" hcond
      constructor
      · rw [caqiStep_eq, hneg,
          caqiFamily_frame f _ "sps30" ("pms" ++ "_caqi") (by decide) (by decide),
          caqiFamily_frame f _ "sds011" ("pms" ++ "_caqi") (by decide) (by decide)]
        exact (habs "pms" (by decide)).1
      · rw [caqiStep_eq, hneg,
          caqiFamily_frame f _ "sps30" ("pms" ++ "_caqi_level") (by decide) (by decide),
          caqiFamily_frame f _ "sds011" ("pms" ++ "_caqi_level") (by decide) (by decide)]
        exact (habs "pms" (by decide)).2
  · constructor
    · intro a b hp1 hp2 hv
      have hf1 : dgetNum (caqiFamily f m "pms") ("sds011" ++ "_p1") = some a := by
        rw [caqiFamily_dgetNum_frame f m "pms" ("sds011" ++ "_p1") (by decide) (by decide)]
        exact hp1
      have hf2 : dgetNum (caqiFamily f m "pms") ("sds011" ++ "_p2") = some b := by
        rw [caqiFamily_dgetNum_frame f m "pms" ("sds011" ++ "_p2") (by decide) (by decide)]
        exact hp2
      have hpos := caqiFamily_pos f (caqiFamily f m "pms") "sds011" a b (by decide)
        hf1 hf2 hv
      constructor
      · rw [caqiStep_eq,
          caqiFamily_frame f _ "sps30" ("sds011" ++ "_caqi") (by decide) (by decide)]
        exact hpos.1
      · rw [caqiStep_eq,
          caqiFamily_frame f _ "sps30" ("sds011" ++ "_caqi_level") (by decide) (by decide)]
        exact hpos.2
    · intro hcond
      have hcond' : dgetNum (caqiFamily f m "pms") ("sds011" ++ "_p1") = none ∨
          dgetNum (caqiFamily f m "pms") ("sds011" ++ "_p2") = none ∨
          (∃ a b, dgetNum (caqiFamily f m "pms") ("sds011" ++ "_p1") = some a ∧
            dgetNum (caqiFamily f m "pms") ("sds011" ++ "_p2") = some b ∧
            ¬((f a b).1 > -1)) := by
        rw [caqiFamily_dgetNum_frame f m "pms" ("sds011" ++ "_p1") (by decide) (by decide),
          caqiFamily_dgetNum_frame f m "pms" ("sds011" ++ "_p2") (by decide) (by decide)]
        exact hcond
      have hneg := caqiFamily_neg f (caqiFamily f m "pms") "sds011" hcond'
      constructor
      · rw [caqiStep_eq, hneg,
          caqiFamily_frame f _ "sps30" ("sds011" ++ "_caqi") (by decide) (by decide),
          caqiFamily_frame f _ "pms" ("sds011" ++ "_caqi") (by decide) (by decide)]
        exact (habs "sds011" (by decide)).1
      · rw [caqiStep_eq, hneg,
          caqiFamily_frame f _ "sps30" ("sds011" ++ "_caqi_level") (by decide) (by decide),
          caqiFamily_frame f _ "pms" ("sds011" ++ "_caqi_level") (by decide) (by decide)]
        exact (habs "sds011" (by decide)).2
  · constructor
    · intro a b hp1 hp2 hv
      have hf1 : dgetNum (caqiFamily f (caqiFamily f m "pms") "sds011")
          ("sps30" ++ "_p1") = some a := by
        rw [caqiFamily_dgetNum_frame f (caqiFamily f m "pms") "sds011" ("sps30" ++ "_p1")
            (by decide) (by decide),
          caqiFamily_dgetNum_frame f m "pms" ("sps30" ++ "_p1") (by decide) (by decide)]
        exact hp1
      have hf2 : dgetNum (caqiFamily f (caqiFamily f m "pms") "sds011")
          ("sps30" ++ "_p2") = some b := by
        rw [caqiFamily_dgetNum_frame f (caqiFamily f m "pms") "sds011" ("sps30" ++ "_p2")
            (by decide) (by decide),
          caqiFamily_dgetNum_frame f m "pms" ("sps30" ++ "_p2") (by decide) (by decide)]
        exact hp2
      have hpos := caqiFamily_pos f (caqiFamily f (caqiFamily f m "pms") "sds011")
        "sps30" a b (by decide) hf1 hf2 hv
      exact ⟨by rw [caqiStep_eq]; exact hpos.1, by rw [caqiStep_eq]; exact hpos.2⟩
    · intro hcond
      have hcond' : dgetNum (caqiFamily f (caqiFamily f m "pms") "sds011")
            ("sps30" ++ "_p1") = none ∨
          dgetNum (caqiFamily f (caqiFamily f m "pms") "sds011")
            ("sps30" ++ "_p2") = none ∨
          (∃ a b, dgetNum (caqiFamily f (caqiFamily f m "pms") "sds011")
              ("sps30" ++ "_p1") = some a ∧
            dgetNum (caqiFamily f (caqiFamily f m "pms") "sds011")
              ("sps30" ++ "_p2") = some b ∧
            ¬((f a b).1 > -1)) := by
        rw [caqiFamily_dgetNum_frame f (caqiFamily f m "pms") "sds011" ("sps30" ++ "_p1")
            (by decide) (by decide),
          caqiFamily_dgetNum_frame f (caqiFamily f m "pms") "sds011" ("sps30" ++ "_p2")
            (by decide) (by decide),
          caqiFamily_dgetNum_frame f m "pms" ("sps30" ++ "_p1") (by decide) (by decide),
          caqiFamily_dgetNum_frame f m "pms" ("sps30" ++ "_p2") (by decide) (by decide)]
        exact hcond
      have hneg := caqiFamily_neg f (caqiFamily f (caqiFamily f m "pms") "sds011")
        "sps30" hcond'
      constructor
      · rw [caqiStep_eq, hneg,
          caqiFamily_frame f (caqiFamily f m "pms") "sds011" ("sps30" ++ "_caqi")
            (by decide) (by decide),
          caqiFamily_frame f m "pms" ("sps30" ++ "_caqi") (by decide) (by decide)]
        exact (habs "sps30" (by decide)).1
      · rw [caqiStep_eq, hneg,
          caqiFamily_frame f (caqiFamily f m "pms") "sds011" ("sps30" ++ "_caqi_level")
            (by decide) (by decide),
          caqiFamily_frame f m "pms" ("sps30" ++ "_caqi_level") (by decide) (by decide)]
        exact (habs "sps30" (by decide)).2

theorem claim6_witness :
    dget (caqiStep (fun _ _ => ((0 : ℚ), "very low"))
        [("pms_p1", SVal.num 40), ("pms_p2", SVal.num 20)]) ("pms" ++ "_caqi") =
      some (SVal.num 0) ∧
    dget (caqiStep (fun _ _ => ((0 : ℚ), "very low"))
        [("pms_p1", SVal.num 40), ("pms_p2", SVal.num 20)]) ("pms" ++ "_caqi_level") =
      some (SVal.str (replaceSpaceUnderscore "very low")) :=
  (claim6_caqi_derivation (fun _ _ => ((0 : ℚ), "very low"))
    [("pms_p1", SVal.num 40), ("pms_p2", SVal.num 20)]
    (by decide) "pms" (by decide)).1 40 20 rfl rfl (by decide)

/-- C8, counterexample: a payload whose `sensordatavalues` entry cannot be
normalized because its `value_type` is a number (wrong shape) makes
`async_update` fail with a plain `AttributeError` escaping the
normalization step, not with `InvalidSensorDataError` — the `except`
clause only catches `TypeError` and `KeyError`. -/
theorem claim8_counterexample :
    (async_update [] (fun _ _ => (0, "")) 5 (initState "nam")
        (.resp 200 (.obj [("software_version", .str "1"),
          ("sensordatavalues",
            .list [.obj [("value_type", .num 5), ("value", .num 1)]])]))).2 =
      .error (.py .attributeError) := rfl

theorem parsePayload_classify (tbl : List (String × String))
    (f : ℚ → ℚ → ℚ × String) (body : JsonVal) (sv : JsonVal)
    (hsv : pySubscr body "software_version" = .ok sv) :
    ((parseAttempt tbl body = .error .typeError ∨
        parseAttempt tbl body = .error .keyError) →
      parsePayload tbl f body =
        .error (.nam (.invalidSensorData "Invalid sensor data"))) ∧
    (∀ e, parseAttempt tbl body = .error e → e ≠ .typeError → e ≠ .keyError →
      parsePayload tbl f body = .error (.py e)) := by
  constructor
  · intro hpt
    unfold parsePayload
    rw [hsv]
    rcases hpt with h | h <;> rw [h]
  · intro e he hne1 hne2
    unfold parsePayload
    rw [hsv]
    cases e with
    | typeError => exact absurd rfl hne1
    | keyError => exact absurd rfl hne2
    | valueError => rw [he]
    | attributeError => rw [he]

/-- C8 (amended): for every successfully fetched or cache-substituted
payload, a normalization failure raising `TypeError` or `KeyError` — a
missing `sensordatavalues` key, a non-iterable value, wrongly shaped
items, items lacking the `value_type`/`value` keys, or a value of a
non-floatable type — surfaces as `InvalidSensorDataError`; but a
normalization failure raising any other Python exception
(`AttributeError` from a non-string `value_type`, `ValueError` from a
non-numeric value string) escapes the normalization step unchanged.  The
first conjunct is the fresh-fetch path; the second is the stale-cache
fallback path, where `body` is the cached payload. -/
theorem claim8_amended_invalid_sensor_data :
    ∀ tbl f cacheN (st : ClientState) (body : JsonVal) sv,
      pySubscr body "software_version" = .ok sv →
      (((parseAttempt tbl body = .error .typeError ∨
            parseAttempt tbl body = .error .keyError) →
          (async_update tbl f cacheN st (.resp 200 body)).2 =
            .error (.nam (.invalidSensorData "Invalid sensor data"))) ∧
        (∀ e, parseAttempt tbl body = .error e → e ≠ .typeError → e ≠ .keyError →
          (async_update tbl f cacheN st (.resp 200 body)).2 = .error (.py e))) ∧
      (∀ sr, (sr = SessionResult.connError ∨ sr = SessionResult.timeout) →
        st.update_errors ≤ cacheN → truthy st.last_data = true →
        st.last_data = body →
        (((parseAttempt tbl body = .error .typeError ∨
              parseAttempt tbl body = .error .keyError) →
            (async_update tbl f cacheN st sr).2 =
              .error (.nam (.invalidSensorData "Invalid sensor data"))) ∧
          (∀ e, parseAttempt tbl body = .error e → e ≠ .typeError → e ≠ .keyError →
            (async_update tbl f cacheN st sr).2 = .error (.py e)))) := by
  intro tbl f cacheN st body sv hsv
  have hclass := parsePayload_classify tbl f body sv hsv
  constructor
  · have hupd : (async_update tbl f cacheN st (.resp 200 body)).2 =
        parsePayload tbl f body := by
      rw [show async_update tbl f cacheN st (.resp 200 body) =
          afterFetch tbl f { st with last_data := body, update_errors := 0 } body
          from rfl]
      exact afterFetch_snd tbl f _ body
    exact ⟨fun hpt => by rw [hupd]; exact hclass.1 hpt,
      fun e he hne1 hne2 => by rw [hupd]; exact hclass.2 e he hne1 hne2⟩
  · intro sr hsr hle htr hld
    have hupd : (async_update tbl f cacheN st sr).2 = parsePayload tbl f body := by
      have key : async_update tbl f cacheN st sr =
          afterFetch tbl f { st with update_errors := st.update_errors + 1 }
            st.last_data := by
        rcases hsr with h | h <;> subst h
        · rw [show async_update tbl f cacheN st SessionResult.connError =
              if st.update_errors ≤ cacheN ∧ truthy st.last_data = true then
                afterFetch tbl f { st with update_errors := st.update_errors + 1 }
                  st.last_data
              else
                (st, .error (.nam (.apiError
                  ("The device " ++ st.host ++ " is not responding"))))
              from rfl, if_pos ⟨hle, htr⟩]
        · rw [show async_update tbl f cacheN st SessionResult.timeout =
              if st.update_errors ≤ cacheN ∧ truthy st.last_data = true then
                afterFetch tbl f { st with update_errors := st.update_errors + 1 }
                  st.last_data
              else
                (st, .error (.nam (.apiError
                  ("The device " ++ st.host ++ " is not responding"))))
              from rfl, if_pos ⟨hle, htr⟩]
      rw [key, hld]
      exact afterFetch_snd tbl f _ body
    exact ⟨fun hpt => by rw [hupd]; exact hclass.1 hpt,
      fun e he hne1 hne2 => by rw [hupd]; exact hclass.2 e he hne1 hne2⟩

theorem claim8_witness :
    (async_update [] (fun _ _ => (0, "")) 5 (initState "nam")
        (.resp 200 (.obj [("software_version", .str "1"),
          ("sensordatavalues", .str "x")]))).2 =
      .error (.nam (.invalidSensorData "Invalid sensor data")) ∧
    (async_update [] (fun _ _ => (0, "")) 5
        { initState "nam" with
          last_data := .obj [("software_version", .str "1"),
            ("sensordatavalues", .str "x")] }
        .connError).2 =
      .error (.nam (.invalidSensorData "Invalid sensor data")) :=
  ⟨(claim8_amended_invalid_sensor_data [] (fun _ _ => (0, "")) 5 (initState "nam")
      (.obj [("software_version", .str "1"), ("sensordatavalues", .str "x")])
      (.str "1") rfl).1.1 (Or.inl rfl),
    ((claim8_amended_invalid_sensor_data [] (fun _ _ => (0, "")) 5
        { initState "nam" with
          last_data := .obj [("software_version", .str "1"),
            ("sensordatavalues", .str "x")] }
        (.obj [("software_version", .str "1"), ("sensordatavalues", .str "x")])
        (.str "1") rfl).2 .connError (Or.inl rfl) (by decide) rfl rfl).1
      (Or.inl rfl)⟩

end NAM
